import Mathlib

/-!
Verification development for the ark-chain-swaps client
(`src/arkToBtc.ts` and the BTC→ARK sibling script).

The two scripts are shallowly embedded: external library calls
(`@noble` hashes and curves, `boltz-core` MuSig/transaction helpers)
are modelled as an oracle structure `Crypto` whose fields take exactly
the arguments the source passes; the hex codec of `@scure/base` is
modelled concretely; each WebSocket event handler is a pure function
from its inputs (session closure variables, network responses, the
message) to the ordered list of protocol/network steps it performs,
paired with an optional thrown error.
-/

/-! ### Bytes and the hex codec (`@scure/base` `hex`) -/

abbrev Byte := Fin 256

abbrev Bytes := List Byte

/-- Lowercase hex digit for a nibble, as `@scure/base`'s alphabet
`0123456789abcdef`. -/
def nibbleChar (n : Fin 16) : Char :=
  match n.val with
  | 0 => '0' | 1 => '1' | 2 => '2' | 3 => '3'
  | 4 => '4' | 5 => '5' | 6 => '6' | 7 => '7'
  | 8 => '8' | 9 => '9' | 10 => 'a' | 11 => 'b'
  | 12 => 'c' | 13 => 'd' | 14 => 'e' | _ => 'f'

/-- Inverse digit lookup, case-insensitive exactly as `hex.decode`'s
per-character lookup: digits `0`-`9`, then `A`-`F`, then `a`-`f`;
`none` on any other character (`hex.decode` throws there). -/
def charNibble (ch : Char) : Option (Fin 16) :=
  let n := ch.toNat
  if h : 48 ≤ n ∧ n ≤ 57 then some ⟨n - 48, by omega⟩
  else if h2 : 65 ≤ n ∧ n ≤ 70 then some ⟨n - 55, by omega⟩
  else if h3 : 97 ≤ n ∧ n ≤ 102 then some ⟨n - 87, by omega⟩
  else none

def byteOfNibbles (hi lo : Fin 16) : Byte :=
  ⟨16 * hi.val + lo.val, by omega⟩

def hexEncodeL : Bytes → List Char
  | [] => []
  | b :: bs =>
    nibbleChar ⟨b.val / 16, by omega⟩ :: nibbleChar ⟨b.val % 16, by omega⟩ ::
      hexEncodeL bs

/-- `hex.decode`: fails (throws) on an odd-length string or a character
outside the alphabet; performs no length validation beyond that. -/
def hexDecodeL : List Char → Option Bytes
  | [] => some []
  | [_] => none
  | c1 :: c2 :: rest =>
    match charNibble c1, charNibble c2, hexDecodeL rest with
    | some hi, some lo, some bs => some (byteOfNibbles hi lo :: bs)
    | _, _, _ => none

def hexEncode (bs : Bytes) : String := String.mk (hexEncodeL bs)

def hexDecode (s : String) : Option Bytes := hexDecodeL s.data

theorem charNibble_nibbleChar (n : Fin 16) : charNibble (nibbleChar n) = some n := by
  fin_cases n <;> rfl

theorem byteOfNibbles_split (b : Byte) :
    byteOfNibbles ⟨b.val / 16, by omega⟩ ⟨b.val % 16, by omega⟩ = b := by
  apply Fin.ext
  simp [byteOfNibbles]
  omega

theorem hexDecodeL_hexEncodeL (bs : Bytes) : hexDecodeL (hexEncodeL bs) = some bs := by
  induction bs with
  | nil => rfl
  | cons b bs ih =>
    simp only [hexEncodeL, hexDecodeL, charNibble_nibbleChar, ih]
    simp [byteOfNibbles_split]

theorem hexDecode_hexEncode (bs : Bytes) : hexDecode (hexEncode bs) = some bs := by
  simpa [hexDecode, hexEncode] using hexDecodeL_hexEncodeL bs

/-- A character the decoder accepts. -/
def isHexDigit (ch : Char) : Bool := (charNibble ch).isSome

/-- The strings the decoder accepts, mirroring its recursion. -/
def validHexL : List Char → Bool
  | [] => true
  | [_] => false
  | c1 :: c2 :: rest => isHexDigit c1 && isHexDigit c2 && validHexL rest

theorem hexDecodeL_isSome : (l : List Char) → (hexDecodeL l).isSome = validHexL l
  | [] => rfl
  | [_] => rfl
  | c1 :: c2 :: rest => by
    have ih := hexDecodeL_isSome rest
    simp only [hexDecodeL, validHexL, isHexDigit]
    rcases h1 : charNibble c1 with _ | n1 <;> rcases h2 : charNibble c2 with _ | n2 <;>
      rcases hr : hexDecodeL rest with _ | bs <;> rw [hr] at ih <;> simp [h1, h2, ← ih]

theorem validHexL_eq : (l : List Char) →
    validHexL l = ((l.length % 2 == 0) && l.all isHexDigit)
  | [] => rfl
  | [_] => by simp [validHexL]
  | c1 :: c2 :: rest => by
    have ih := validHexL_eq rest
    simp only [validHexL, List.all_cons, List.length_cons]
    rw [ih]
    have hmod : (rest.length + 1 + 1) % 2 = rest.length % 2 := by omega
    rw [hmod]
    cases hm : (rest.length % 2 == 0) <;> cases isHexDigit c1 <;> cases isHexDigit c2 <;> simp

/-! ### Transactions and swap-output detection (`boltz-core` `detectSwap`) -/

structure TxOut where
  script : Bytes
  amount : Nat
  deriving DecidableEq, Repr

/-- Result of `Transaction.fromRaw`: the parts of the parsed lockup
transaction the script reads (outputs and txid). -/
structure ParsedTx where
  outputs : List TxOut
  txid : Bytes
  deriving DecidableEq, Repr

structure SwapOut where
  script : Bytes
  amount : Nat
  vout : Nat
  deriving DecidableEq, Repr

/-- Taproot output script for a tweaked aggregate key (`OP_1 <32-byte key>`). -/
def p2trScript (key : Bytes) : Bytes := (0x51 : Byte) :: (0x20 : Byte) :: key

/-! ### Protocol steps and errors

Each WebSocket event handler is embedded as a pure function returning
the ordered list of externally visible steps it performs (network
calls and MuSig protocol operations) together with an optional thrown
error; steps performed before a throw are kept, steps after are not. -/

inductive Step where
  | fetchQuote (swapId : String)
  | postQuoteAmount (swapId : String) (amount : Int)
  | fetchClaimDetails (swapId : String)
  | postClaim (swapId : String) (preimage pubNonce transaction : String) (index : Nat)
  | postPartSig (swapId : String) (partSignature pubNonce : String)
  | broadcast (txHex : String)
  | musigMessage (msg : Bytes)
  | generateNonce (pub : Bytes)
  | aggregateNonces (pairs : List (Bytes × Bytes))
  | initSession
  | addPart (key sig : Bytes)
  | signPart
  | aggParts
  | closeSocket
  deriving DecidableEq, Repr

inductive Err where
  | hexError
  | txParseError
  | undefinedAccess
  deriving DecidableEq, Repr

def Step.isFetchQuote : Step → Bool
  | .fetchQuote _ => true
  | _ => false

def Step.isPostQuote : Step → Bool
  | .postQuoteAmount _ _ => true
  | _ => false

def Step.isFetchClaimDetails : Step → Bool
  | .fetchClaimDetails _ => true
  | _ => false

def Step.isPostClaim : Step → Bool
  | .postClaim _ _ _ _ _ => true
  | _ => false

def Step.isBroadcast : Step → Bool
  | .broadcast _ => true
  | _ => false

def Step.isAggNonces : Step → Bool
  | .aggregateNonces _ => true
  | _ => false

def Step.isSignPart : Step → Bool
  | .signPart => true
  | _ => false

def Step.isClose : Step → Bool
  | .closeSocket => true
  | _ => false

/-- Outbound network calls (fetches, submissions, broadcast). -/
def Step.isNetwork : Step → Bool
  | .fetchQuote _ => true
  | .postQuoteAmount _ _ => true
  | .fetchClaimDetails _ => true
  | .postClaim _ _ _ _ _ => true
  | .postPartSig _ _ _ => true
  | .broadcast _ => true
  | _ => false

def countSteps (p : Step → Bool) (l : List Step) : Nat := (l.filter p).length

/-- Every step satisfying `tgt` is preceded (strictly earlier in the
list) by some step satisfying `pre`. -/
def precededByAux (tgt pre : Step → Bool) : Bool → List Step → Bool
  | _, [] => true
  | seen, st :: rest => (!tgt st || seen) && precededByAux tgt pre (seen || pre st) rest

def precededBy (tgt pre : Step → Bool) (l : List Step) : Bool :=
  precededByAux tgt pre false l

/-! ### External collaborators

Oracle for the external cryptographic and transaction libraries
(`@noble/hashes`, `@noble/curves`, `boltz-core`, `@scure/btc-signer`).
Each field takes the arguments the source passes at the call site and
returns an opaque value; `freshNonce` is the nonce `generateNonce`
draws during the one handler invocation under consideration. -/

structure Crypto where
  sha256 : Bytes → Bytes
  /-- `hash160` (sha256 then ripemd160), used by the legacy candidate
  output scripts inside `detectSwap`. -/
  hash160 : Bytes → Bytes
  getPublicKey : Bytes → Bytes
  /-- `Musig.create(secret, pubkeys)`: the untweaked aggregate; it is also
  the `internalKey` of the tweaked Musig object. -/
  musigCreate : Bytes → List Bytes → Bytes
  /-- `TaprootUtils.tweakMusig(musig, tree)`: the tweaked `aggPubkey`. -/
  tweakMusig : Bytes → Bytes → Bytes
  /-- `SwapTreeSerializer.deserializeSwapTree(...).tree`. -/
  deserializeSwapTree : String → Bytes
  /-- `Transaction.fromRaw` (throws on malformed bytes). -/
  fromRaw : Bytes → Option ParsedTx
  /-- `targetFee(1, fee => constructClaimTransaction([...], dest, fee)).hex`
  for the claim input (preimage, detected output, claim keys, lockup txid,
  swap tree, internal key); the destination address is a module constant. -/
  buildClaimTx : Bytes → SwapOut → Bytes → Bytes → Bytes → Bytes → String
  /-- `claimTx.preimageWitnessV1(index, scripts, SigHash.DEFAULT, amounts)`. -/
  sighash : String → Nat → List Bytes → List Nat → Bytes
  freshNonce : Bytes
  /-- Our side of `signPartial()` on the bound message. -/
  signPartFn : Bytes → Bytes
  /-- `musigSigned.aggregatePartials()`. -/
  aggSigValue : Bytes
  /-- `claimTx.hex` after `updateInput` attached the final witness. -/
  finalizeTx : String → Bytes → String

/-- `OP_HASH160 <hash160(s)> OP_EQUAL`: the legacy p2sh output script. -/
def p2shScript (c : Crypto) (s : Bytes) : Bytes :=
  (0xa9 : Byte) :: (0x14 : Byte) :: (c.hash160 s ++ [(0x87 : Byte)])

/-- `OP_0 <sha256(s)>`: the p2wsh output script. -/
def p2wshScript (c : Crypto) (s : Bytes) : Bytes :=
  (0x00 : Byte) :: (0x20 : Byte) :: c.sha256 s

/-- p2sh wrapping of the p2wsh output script (p2sh-p2wsh). -/
def p2shP2wshScript (c : Crypto) (s : Bytes) : Bytes := p2shScript c (p2wshScript c s)

/-- The four candidate output scripts `detectSwap` derives from its
redeem-script-or-tweaked-key argument: legacy p2sh, p2sh-p2wsh, p2wsh
and p2tr. -/
def swapScripts (c : Crypto) (key : Bytes) : List Bytes :=
  [p2shScript c key, p2shP2wshScript c key, p2wshScript c key, p2trScript key]

/-- Scan of all outputs, overwriting the accumulator on every output
whose script matches a candidate (so the last match wins, as the
source's `forEach` does). -/
def detectSwapAux (cands : List Bytes) : Nat → Option SwapOut → List TxOut → Option SwapOut
  | _, acc, [] => acc
  | i, acc, o :: rest =>
    detectSwapAux cands (i + 1)
      (if o.script ∈ cands then some ⟨o.script, o.amount, i⟩ else acc) rest

/-- `detectSwap(musig.aggPubkey, lockupTx)`: the last output matching
one of the four candidate scripts derived from the tweaked aggregate
key, or `none` (`undefined` in the source). -/
def detectSwap (c : Crypto) (key : Bytes) (tx : ParsedTx) : Option SwapOut :=
  detectSwapAux (swapScripts c key) 0 none tx.outputs

/-- Responses of the service the handlers consume. -/
structure SignResp where
  pubNonce : String
  partSignature : String
  deriving DecidableEq, Repr

structure ClaimDetailsResp where
  pubNonce : String
  publicKey : String
  transactionHash : String
  deriving DecidableEq, Repr

structure NetEnv where
  quoteAmount : Int
  signResp : SignResp
  claimDetails : ClaimDetailsResp
  deriving DecidableEq, Repr

/-! ### Session data (closure variables and the creation exchange) -/

/-- Module constants of both scripts. -/
def endpoint : String := "http://127.0.0.1:9006"

def userLockAmount : Nat := 100000

def destinationAddress : String := "bcrt1qtrtsds7f6su9jgqg24r5w7k8sfw76szl626v93"

def arkPublicKeyHex : String :=
  "0287cc2a12b37f6f278cd3807df0c8b8b2affde1bed8064447781ac50155754107"

def arkPublicKey : Bytes := (hexDecode arkPublicKeyHex).getD []

/-- Body of the swap-creation POST. -/
structure CreateRequest where
  amount : Nat
  fromAsset : String
  toAsset : String
  preimageHash : String
  claimPublicKey : String
  refundPublicKey : String
  deriving DecidableEq, Repr

/-- Creation request of `arkToBtc.ts`. -/
def arkCreateRequest (c : Crypto) (preimage claimKeys : Bytes) : CreateRequest :=
  { amount := userLockAmount
    fromAsset := "ARK"
    toAsset := "BTC"
    preimageHash := hexEncode (c.sha256 preimage)
    claimPublicKey := hexEncode (c.getPublicKey claimKeys)
    refundPublicKey := hexEncode arkPublicKey }

/-- Creation request of the BTC→ARK script. -/
def btcCreateRequest (c : Crypto) (preimage refundKeys : Bytes) : CreateRequest :=
  { amount := userLockAmount
    fromAsset := "BTC"
    toAsset := "ARK"
    preimageHash := hexEncode (c.sha256 preimage)
    claimPublicKey := hexEncode arkPublicKey
    refundPublicKey := hexEncode (c.getPublicKey refundKeys) }

/-- `createdResponse.claimDetails` as read by `arkToBtc.ts`. -/
structure ClaimDetailsInfo where
  serverPublicKey : String
  swapTree : String
  deriving DecidableEq, Repr

/-- `createdResponse.lockupDetails` as read by the BTC→ARK script. -/
structure LockupDetailsInfo where
  serverPublicKey : String
  swapTree : String
  deriving DecidableEq, Repr

/-- Swap-creation response of the ARK→BTC direction. The JSON is read
untyped; `aggregateKey` stands for the aggregate key the service
publishes alongside, which the script never reads. -/
structure ArkCreatedResponse where
  id : String
  claimDetails : ClaimDetailsInfo
  aggregateKey : String
  deriving DecidableEq, Repr

structure BtcCreatedResponse where
  id : String
  lockupDetails : LockupDetailsInfo
  aggregateKey : String
  deriving DecidableEq, Repr

/-- Closure state of one `chainSwap()` run of `arkToBtc.ts`. -/
structure ArkSession where
  preimage : Bytes
  claimKeys : Bytes
  created : ArkCreatedResponse
  deriving DecidableEq, Repr

/-- Closure state of one `chainSwap()` run of the BTC→ARK script. -/
structure BtcSession where
  preimage : Bytes
  refundKeys : Bytes
  created : BtcCreatedResponse
  deriving DecidableEq, Repr

/-! ### Event handlers -/

/-- A parsed `swap.update` message argument (`msg.args[0]`). -/
structure WsArg where
  id : String
  status : String
  transactionHex : String
  deriving DecidableEq, Repr

structure WsMsg where
  event : String
  args : List WsArg
  deriving DecidableEq, Repr

/-- `transaction.lockupFailed` handler, identical in both scripts: GET
the quote, then POST back exactly the fetched amount. -/
def lockupFailedSteps (swapId : String) (env : NetEnv) : List Step :=
  [Step.fetchQuote swapId, Step.postQuoteAmount swapId env.quoteAmount]

/-- `transaction.server.mempool` handler of `arkToBtc.ts` (lines
126-241): parse the lockup transaction, derive the tweaked aggregate
key, locate the swap output, build the claim transaction, run the
MuSig2 rounds with the service and broadcast. -/
def arkMempoolHandler (c : Crypto) (s : ArkSession) (env : NetEnv) (txHex : String) :
    List Step × Option Err :=
  match hexDecode txHex with
  | none => ([], some Err.hexError)
  | some raw =>
    match c.fromRaw raw with
    | none => ([], some Err.txParseError)
    | some lockupTx =>
      match hexDecode s.created.claimDetails.serverPublicKey with
      | none => ([], some Err.hexError)
      | some serverPub =>
        let swapTree := c.deserializeSwapTree s.created.claimDetails.swapTree
        let internalKey := c.musigCreate s.claimKeys [serverPub, c.getPublicKey s.claimKeys]
        let aggPubkey := c.tweakMusig internalKey swapTree
        match detectSwap c aggPubkey lockupTx with
        | none => ([], some Err.undefinedAccess)
        | some swapOutput =>
          let claimTxHex :=
            c.buildClaimTx s.preimage swapOutput s.claimKeys lockupTx.txid swapTree internalKey
          let msg := c.sighash claimTxHex 0 [swapOutput.script] [swapOutput.amount]
          let nonce := c.freshNonce
          let pre := [Step.musigMessage msg, Step.generateNonce nonce,
            Step.postClaim s.created.id (hexEncode s.preimage) (hexEncode nonce) claimTxHex 0]
          match hexDecode env.signResp.pubNonce with
          | none => (pre, some Err.hexError)
          | some serverNonce =>
            let mid := pre ++ [Step.aggregateNonces [(serverPub, serverNonce)], Step.initSession]
            match hexDecode env.signResp.partSignature with
            | none => (mid, some Err.hexError)
            | some serverPartSig =>
              (mid ++ [Step.addPart serverPub serverPartSig, Step.signPart, Step.aggParts,
                Step.broadcast (c.finalizeTx claimTxHex c.aggSigValue)], none)

/-- `transaction.claim.pending` handler of the BTC→ARK script (lines
122-185): fetch the claim details, derive the tweaked aggregate key,
bind the service-supplied transaction hash as the message, run both
MuSig2 rounds and POST the partial signature. -/
def btcClaimPendingHandler (c : Crypto) (s : BtcSession) (env : NetEnv) :
    List Step × Option Err :=
  let pre := [Step.fetchClaimDetails s.created.id]
  match hexDecode env.claimDetails.publicKey with
  | none => (pre, some Err.hexError)
  | some serverKey =>
    let swapTree := c.deserializeSwapTree s.created.lockupDetails.swapTree
    let internalKey := c.musigCreate s.refundKeys [serverKey, c.getPublicKey s.refundKeys]
    let _aggPubkey := c.tweakMusig internalKey swapTree
    match hexDecode env.claimDetails.transactionHash with
    | none => (pre, some Err.hexError)
    | some txHash =>
      let bound := pre ++ [Step.musigMessage txHash, Step.generateNonce c.freshNonce]
      match hexDecode s.created.lockupDetails.serverPublicKey with
      | none => (bound, some Err.hexError)
      | some serverPubL =>
        match hexDecode env.claimDetails.pubNonce with
        | none => (bound, some Err.hexError)
        | some counterNonce =>
          (bound ++ [Step.aggregateNonces [(serverPubL, counterNonce)], Step.initSession,
            Step.signPart,
            Step.postPartSig s.created.id (hexEncode (c.signPartFn txHash))
              (hexEncode c.freshNonce)], none)

/-- The WebSocket `message` listener of `arkToBtc.ts`: non-`update`
events are dropped; otherwise dispatch on `msg.args[0].status` (the
swap identifier in the message is never inspected). There is no
`transaction.claim.pending` case in this script. -/
def arkMessageHandler (c : Crypto) (s : ArkSession) (env : NetEnv) (msg : WsMsg) :
    List Step × Option Err :=
  if msg.event ≠ "update" then ([], none)
  else
    match msg.args with
    | [] => ([], some Err.undefinedAccess)
    | a :: _ =>
      if a.status = "swap.created" then ([], none)
      else if a.status = "transaction.lockupFailed" then (lockupFailedSteps s.created.id env, none)
      else if a.status = "transaction.server.mempool" then arkMempoolHandler c s env a.transactionHex
      else if a.status = "transaction.claimed" then ([Step.closeSocket], none)
      else ([], none)

/-- The WebSocket `message` listener of the BTC→ARK script: its
`transaction.server.mempool` case only logs, and cooperative signing
happens on `transaction.claim.pending`. -/
def btcMessageHandler (c : Crypto) (s : BtcSession) (env : NetEnv) (msg : WsMsg) :
    List Step × Option Err :=
  if msg.event ≠ "update" then ([], none)
  else
    match msg.args with
    | [] => ([], some Err.undefinedAccess)
    | a :: _ =>
      if a.status = "swap.created" then ([], none)
      else if a.status = "transaction.lockupFailed" then (lockupFailedSteps s.created.id env, none)
      else if a.status = "transaction.server.mempool" then ([], none)
      else if a.status = "transaction.claim.pending" then btcClaimPendingHandler c s env
      else if a.status = "transaction.claimed" then ([Step.closeSocket], none)
      else ([], none)

/-! ### Running a session over an event sequence -/

structure RunState where
  steps : List Step
  errs : Nat
  closed : Bool
  deriving DecidableEq, Repr

def hasClose (l : List Step) : Bool := l.any Step.isClose

/-- Process one message: a closed socket delivers no further messages;
an exception thrown by one handler does not stop later events. -/
def runHandler (handle : WsMsg → List Step × Option Err) (st : RunState) (msg : WsMsg) :
    RunState :=
  if st.closed then st
  else
    let r := handle msg
    { steps := st.steps ++ r.1
      errs := st.errs + (if r.2.isSome then 1 else 0)
      closed := st.closed || hasClose r.1 }

def runSession (handle : WsMsg → List Step × Option Err) (msgs : List WsMsg) : RunState :=
  msgs.foldl (runHandler handle) ⟨[], 0, false⟩

/-- The literal event sequence of the state-machine property, all
carrying the session's swap identifier. -/
def evSeq (swapId : String) (txHex : String) : List WsMsg :=
  [⟨"update", [⟨swapId, "swap.created", ""⟩]⟩,
   ⟨"update", [⟨swapId, "transaction.lockupFailed", ""⟩]⟩,
   ⟨"update", [⟨swapId, "transaction.server.mempool", txHex⟩]⟩,
   ⟨"update", [⟨swapId, "transaction.claim.pending", ""⟩]⟩,
   ⟨"update", [⟨swapId, "transaction.claimed", ""⟩]⟩]

/-! ### Fee targeting (§4.3) -/

/-- Modelled from the spec: `targetFee` and `constructClaimTransaction`
are imported from the external `boltz-core` package and their
implementation is not part of this repository; this section models the
§4.3 ClaimTransactionBuilder: a single fixed-size input/output claim
template whose fee is found by fixed-point iteration. -/
structure LockupObs where
  txid : Bytes
  vout : Nat
  amount : Nat
  deriving DecidableEq, Repr

/-- Modelled from the spec: the candidate claim transaction — one input
spending the lockup observation, one output to the destination script
carrying the input amount minus the fee. -/
structure ClaimDraft where
  txid : Bytes
  vout : Nat
  outputScript : Bytes
  outputValue : Nat
  deriving DecidableEq, Repr

/-- Little-endian fixed-width encoding (k bytes). -/
def leBytes : Nat → Nat → Bytes
  | 0, _ => []
  | k + 1, n => (⟨n % 256, by omega⟩ : Byte) :: leBytes k (n / 256)

/-- Modelled from the spec: serialization of the claim template —
version, outpoint (txid, vout), 8-byte output value, output script
with its length prefix. -/
def serializeDraft (d : ClaimDraft) : Bytes :=
  leBytes 4 2 ++ d.txid ++ leBytes 4 d.vout ++ leBytes 8 d.outputValue ++
    leBytes 1 d.outputScript.length ++ d.outputScript

/-- Modelled from the spec: the measured serialized weight. -/
def draftWeight (d : ClaimDraft) : Nat := 4 * (serializeDraft d).length

/-- Modelled from the spec: `constructClaimTransaction` — rebuild the
template with the fee subtracted from the output value. -/
def constructClaimDraft (obs : LockupObs) (script : Bytes) (fee : Nat) : ClaimDraft :=
  { txid := obs.txid, vout := obs.vout, outputScript := script,
    outputValue := obs.amount - fee }

/-- Modelled from the spec: the fixed-point iteration — measure the
candidate's weight, set fee = weight × rate, rebuild, and repeat until
the fee implied by the new weight stabilizes. -/
def feeLoop (obs : LockupObs) (script : Bytes) (rate : Nat) : Nat → Nat → Nat
  | 0, fee => fee
  | k + 1, fee =>
    let fee' := draftWeight (constructClaimDraft obs script fee) * rate
    if fee' = fee then fee else feeLoop obs script rate k fee'

/-- Modelled from the spec: `targetFee` — start from a zero-fee
candidate (convergence takes at most two rebuilds, so any fuel ≥ 2
gives the fixed point). -/
def targetFee (rate : Nat) (obs : LockupObs) (script : Bytes) : ClaimDraft :=
  constructClaimDraft obs script (feeLoop obs script rate 3 0)

theorem leBytes_length (k n : Nat) : (leBytes k n).length = k := by
  induction k generalizing n with
  | zero => rfl
  | succ k ih => simp [leBytes, ih]

/-- The template's weight does not depend on the fee carried in the
output value. -/
theorem draftWeight_const (obs : LockupObs) (script : Bytes) (fee : Nat) :
    draftWeight (constructClaimDraft obs script fee) =
      draftWeight (constructClaimDraft obs script 0) := by
  simp [draftWeight, serializeDraft, constructClaimDraft, leBytes_length]

theorem feeLoop_eval (obs : LockupObs) (script : Bytes) (rate : Nat) :
    feeLoop obs script rate 3 0 = draftWeight (constructClaimDraft obs script 0) * rate := by
  simp only [feeLoop]
  rcases h : draftWeight (constructClaimDraft obs script 0) * rate with _ | m
  · simp [h]
  · rw [if_neg (by omega)]
    simp only [feeLoop, draftWeight_const, h]
    simp

/-! ### Concrete instances used to evaluate the handlers -/

/-- A concrete oracle: opaque library outputs instantiated with small
values; `fromRaw` parses every input to a one-output transaction whose
script pays the (trivial) tweaked aggregate key. -/
def cxCrypto : Crypto :=
  { sha256 := fun bs => bs
    hash160 := fun bs => bs
    getPublicKey := fun bs => bs
    musigCreate := fun _ _ => []
    tweakMusig := fun _ _ => []
    deserializeSwapTree := fun _ => []
    fromRaw := fun _ => some ⟨[⟨p2trScript [], 5000⟩], []⟩
    buildClaimTx := fun _ _ _ _ _ _ => "deadbeef"
    sighash := fun _ _ _ _ => [1]
    freshNonce := [2]
    signPartFn := fun m => m
    aggSigValue := [3]
    finalizeTx := fun h _ => h }

/-- Same oracle, but the parsed lockup transaction has no output paying
the tweaked aggregate key. -/
def cxCryptoNoOut : Crypto :=
  { cxCrypto with fromRaw := fun _ => some ⟨[⟨[0], 5⟩], []⟩ }

def cxArkSession : ArkSession :=
  { preimage := List.replicate 32 0
    claimKeys := [7]
    created :=
      { id := "swapA"
        claimDetails := { serverPublicKey := "03aa", swapTree := "tree" }
        aggregateKey := "ff" } }

def cxBtcSession : BtcSession :=
  { preimage := List.replicate 32 0
    refundKeys := [8]
    created :=
      { id := "swapB"
        lockupDetails := { serverPublicKey := "02bb", swapTree := "tree" }
        aggregateKey := "ff" } }

def cxEnv : NetEnv :=
  { quoteAmount := 12345
    signResp := { pubNonce := "aa", partSignature := "bb" }
    claimDetails := { pubNonce := "cc", publicKey := "dd", transactionHash := "00" } }

/-! ### Helper lemmas about the handlers -/

theorem detectSwapAux_none (cands : List Bytes) (outs : List TxOut)
    (h : ∀ o ∈ outs, o.script ∉ cands) :
    ∀ i acc, detectSwapAux cands i acc outs = acc := by
  induction outs with
  | nil => intro i acc; rfl
  | cons o rest ih =>
    intro i acc
    simp only [detectSwapAux]
    rw [if_neg (h o (by simp))]
    exact ih (fun o ho => h o (by simp [ho])) (i + 1) acc

/-- Successful run of the ARK→BTC mempool handler: the full step list. -/
theorem arkMempoolHandler_eq (c : Crypto) (s : ArkSession) (env : NetEnv)
    (txHex : String) (raw : Bytes) (tx : ParsedTx) (spub : Bytes) (out : SwapOut)
    (n5 n6 : Bytes)
    (h1 : hexDecode txHex = some raw)
    (h2 : c.fromRaw raw = some tx)
    (h3 : hexDecode s.created.claimDetails.serverPublicKey = some spub)
    (h4 : detectSwap c
      (c.tweakMusig (c.musigCreate s.claimKeys [spub, c.getPublicKey s.claimKeys])
        (c.deserializeSwapTree s.created.claimDetails.swapTree)) tx = some out)
    (h5 : hexDecode env.signResp.pubNonce = some n5)
    (h6 : hexDecode env.signResp.partSignature = some n6) :
    arkMempoolHandler c s env txHex =
      ([Step.musigMessage (c.sighash
          (c.buildClaimTx s.preimage out s.claimKeys tx.txid
            (c.deserializeSwapTree s.created.claimDetails.swapTree)
            (c.musigCreate s.claimKeys [spub, c.getPublicKey s.claimKeys]))
          0 [out.script] [out.amount]),
        Step.generateNonce c.freshNonce,
        Step.postClaim s.created.id (hexEncode s.preimage) (hexEncode c.freshNonce)
          (c.buildClaimTx s.preimage out s.claimKeys tx.txid
            (c.deserializeSwapTree s.created.claimDetails.swapTree)
            (c.musigCreate s.claimKeys [spub, c.getPublicKey s.claimKeys])) 0,
        Step.aggregateNonces [(spub, n5)], Step.initSession,
        Step.addPart spub n6, Step.signPart, Step.aggParts,
        Step.broadcast (c.finalizeTx
          (c.buildClaimTx s.preimage out s.claimKeys tx.txid
            (c.deserializeSwapTree s.created.claimDetails.swapTree)
            (c.musigCreate s.claimKeys [spub, c.getPublicKey s.claimKeys]))
          c.aggSigValue)],
       none) := by
  simp [arkMempoolHandler, h1, h2, h3, h4, h5, h6]

/-- Successful run of the BTC→ARK claim-pending handler. -/
theorem btcClaimPendingHandler_eq (c : Crypto) (s : BtcSession) (env : NetEnv)
    (skey th spub cn : Bytes)
    (h1 : hexDecode env.claimDetails.publicKey = some skey)
    (h2 : hexDecode env.claimDetails.transactionHash = some th)
    (h3 : hexDecode s.created.lockupDetails.serverPublicKey = some spub)
    (h4 : hexDecode env.claimDetails.pubNonce = some cn) :
    btcClaimPendingHandler c s env =
      ([Step.fetchClaimDetails s.created.id, Step.musigMessage th,
        Step.generateNonce c.freshNonce, Step.aggregateNonces [(spub, cn)],
        Step.initSession, Step.signPart,
        Step.postPartSig s.created.id (hexEncode (c.signPartFn th))
          (hexEncode c.freshNonce)],
       none) := by
  simp [btcClaimPendingHandler, h1, h2, h3, h4]

/-- In every branch of the ARK→BTC mempool handler, a partial signature
is only computed after nonce aggregation, which itself follows the
claim POST that returns the counterparty nonce. -/
theorem arkMempoolHandler_order (c : Crypto) (s : ArkSession) (env : NetEnv) (txHex : String) :
    precededBy Step.isSignPart Step.isAggNonces (arkMempoolHandler c s env txHex).1 = true ∧
    precededBy Step.isAggNonces Step.isPostClaim (arkMempoolHandler c s env txHex).1 = true := by
  simp only [arkMempoolHandler]
  rcases h1 : hexDecode txHex with _ | raw
  · simp [precededBy, precededByAux]
  rcases h2 : c.fromRaw raw with _ | tx
  · simp [h2, precededBy, precededByAux]
  rcases h3 : hexDecode s.created.claimDetails.serverPublicKey with _ | spub
  · simp [h2, h3, precededBy, precededByAux]
  rcases h4 : detectSwap c
      (c.tweakMusig (c.musigCreate s.claimKeys [spub, c.getPublicKey s.claimKeys])
      (c.deserializeSwapTree s.created.claimDetails.swapTree)) tx with _ | out
  · simp [h2, h3, h4, precededBy, precededByAux]
  rcases h5 : hexDecode env.signResp.pubNonce with _ | n5
  · simp [h2, h3, h4, h5, precededBy, precededByAux, Step.isSignPart, Step.isAggNonces,
      Step.isPostClaim]
  rcases h6 : hexDecode env.signResp.partSignature with _ | n6 <;>
    simp [h2, h3, h4, h5, h6, precededBy, precededByAux, Step.isSignPart, Step.isAggNonces,
      Step.isPostClaim]

/-- In every branch of the BTC→ARK claim-pending handler, a partial
signature is only computed after nonce aggregation, which itself
follows the claim-details fetch that returns the counterparty nonce. -/
theorem btcClaimPendingHandler_order (c : Crypto) (s : BtcSession) (env : NetEnv) :
    precededBy Step.isSignPart Step.isAggNonces (btcClaimPendingHandler c s env).1 = true ∧
    precededBy Step.isAggNonces Step.isFetchClaimDetails (btcClaimPendingHandler c s env).1
      = true := by
  simp only [btcClaimPendingHandler]
  rcases h1 : hexDecode env.claimDetails.publicKey with _ | skey
  · simp [precededBy, precededByAux, Step.isSignPart, Step.isAggNonces,
      Step.isFetchClaimDetails]
  rcases h2 : hexDecode env.claimDetails.transactionHash with _ | th
  · simp [h2, precededBy, precededByAux, Step.isSignPart, Step.isAggNonces,
      Step.isFetchClaimDetails]
  rcases h3 : hexDecode s.created.lockupDetails.serverPublicKey with _ | spub
  · simp [h2, h3, precededBy, precededByAux, Step.isSignPart, Step.isAggNonces,
      Step.isFetchClaimDetails]
  rcases h4 : hexDecode env.claimDetails.pubNonce with _ | cn <;>
    simp [h2, h3, h4, precededBy, precededByAux, Step.isSignPart, Step.isAggNonces,
      Step.isFetchClaimDetails]

/-- Trace ordering lifted to the whole message listener. -/
theorem arkMessageHandler_order (c : Crypto) (s : ArkSession) (env : NetEnv) (msg : WsMsg) :
    precededBy Step.isSignPart Step.isAggNonces (arkMessageHandler c s env msg).1 = true ∧
    precededBy Step.isAggNonces Step.isPostClaim (arkMessageHandler c s env msg).1 = true := by
  unfold arkMessageHandler
  repeat' split
  any_goals exact arkMempoolHandler_order c s env _
  all_goals refine ⟨?_, ?_⟩ <;>
    simp [lockupFailedSteps, precededBy, precededByAux, Step.isSignPart,
      Step.isAggNonces, Step.isPostClaim]

theorem btcMessageHandler_order (c : Crypto) (s : BtcSession) (env : NetEnv) (msg : WsMsg) :
    precededBy Step.isSignPart Step.isAggNonces (btcMessageHandler c s env msg).1 = true ∧
    precededBy Step.isAggNonces Step.isFetchClaimDetails (btcMessageHandler c s env msg).1
      = true := by
  unfold btcMessageHandler
  repeat' split
  any_goals exact btcClaimPendingHandler_order c s env
  all_goals refine ⟨?_, ?_⟩ <;>
    simp [lockupFailedSteps, precededBy, precededByAux, Step.isSignPart,
      Step.isAggNonces, Step.isFetchClaimDetails]

/-! ### Claims -/

/-- C1 (counterexample): in the BTC→ARK flow, with a creation response
whose published aggregate key (`"ff"`) differs from the locally derived
tweaked aggregate key (`[]` under `cxCrypto`), the claim-pending
handler still computes a partial signature instead of aborting. -/
theorem C1_counterexample :
    (hexDecode cxBtcSession.created.aggregateKey ≠
      some (cxCrypto.tweakMusig
        (cxCrypto.musigCreate cxBtcSession.refundKeys
          [[0xdd], cxCrypto.getPublicKey cxBtcSession.refundKeys])
        (cxCrypto.deserializeSwapTree cxBtcSession.created.lockupDetails.swapTree)) ∧
     hexDecode cxEnv.claimDetails.publicKey = some [0xdd]) ∧
    Step.signPart ∈ (btcClaimPendingHandler cxCrypto cxBtcSession cxEnv).1 := by
  decide

/-- C1 (amended): neither script ever compares the locally derived
tweaked aggregate key with the aggregate key published in the service's
swap-creation response — the behavior of both message listeners is
invariant under that field, so on a mismatch the session proceeds to
sign rather than aborting. -/
theorem C1_amended_no_aggregate_key_check (c : Crypto) (sA : ArkSession) (sB : BtcSession)
    (env : NetEnv) (msgA msgB : WsMsg) (k k' : String) :
    arkMessageHandler c { sA with created := { sA.created with aggregateKey := k } } env msgA =
      arkMessageHandler c { sA with created := { sA.created with aggregateKey := k' } } env
        msgA ∧
    btcMessageHandler c { sB with created := { sB.created with aggregateKey := k } } env msgB =
      btcMessageHandler c { sB with created := { sB.created with aggregateKey := k' } } env
        msgB :=
  ⟨rfl, rfl⟩

/-- C2: in both flows and in every branch of every handler, round 2
(`initializeSession` / `signPartial`) only happens after the public
nonces have been aggregated, and nonce aggregation itself only happens
after the network exchange that delivers the counterparty nonce (the
claim POST response in ARK→BTC, the claim-details GET in BTC→ARK);
the handlers are sequential, so no other execution order exists. -/
theorem C2_round2_after_nonce_aggregation (c : Crypto) (sA : ArkSession) (sB : BtcSession)
    (env : NetEnv) (msgA msgB : WsMsg) :
    precededBy Step.isSignPart Step.isAggNonces (arkMessageHandler c sA env msgA).1 = true ∧
    precededBy Step.isAggNonces Step.isPostClaim (arkMessageHandler c sA env msgA).1 = true ∧
    precededBy Step.isSignPart Step.isAggNonces (btcMessageHandler c sB env msgB).1 = true ∧
    precededBy Step.isAggNonces Step.isFetchClaimDetails (btcMessageHandler c sB env msgB).1
      = true :=
  ⟨(arkMessageHandler_order c sA env msgA).1, (arkMessageHandler_order c sA env msgA).2,
   (btcMessageHandler_order c sB env msgB).1, (btcMessageHandler_order c sB env msgB).2⟩

/-- C3: the creation request records `sha256(preimage)` (hex), and the
preimage revealed in the mempool handler's claim POST is the very same
32-byte value, so decoding the revealed preimage and hashing it
reproduces the hash recorded at creation. -/
theorem C3_preimage_hash_roundtrip (c : Crypto) (s : ArkSession) (env : NetEnv)
    (txHex prehex noncehex claimhex : String) (idx : Nat)
    (h32 : s.preimage.length = 32)
    (hstep : Step.postClaim s.created.id prehex noncehex claimhex idx ∈
      (arkMempoolHandler c s env txHex).1) :
    ∃ p : Bytes, hexDecode prehex = some p ∧ p = s.preimage ∧
      hexEncode (c.sha256 p) = (arkCreateRequest c s.preimage s.claimKeys).preimageHash := by
  have hpre : prehex = hexEncode s.preimage := by
    rcases h1 : hexDecode txHex with _ | raw
    · simp [arkMempoolHandler, h1] at hstep
    rcases h2 : c.fromRaw raw with _ | tx
    · simp [arkMempoolHandler, h1, h2] at hstep
    rcases h3 : hexDecode s.created.claimDetails.serverPublicKey with _ | spub
    · simp [arkMempoolHandler, h1, h2, h3] at hstep
    rcases h4 : detectSwap c (c.tweakMusig
        (c.musigCreate s.claimKeys [spub, c.getPublicKey s.claimKeys])
        (c.deserializeSwapTree s.created.claimDetails.swapTree)) tx with _ | out
    · simp [arkMempoolHandler, h1, h2, h3, h4] at hstep
    rcases h5 : hexDecode env.signResp.pubNonce with _ | n5
    · simp [arkMempoolHandler, h1, h2, h3, h4, h5] at hstep
      exact hstep.1
    rcases h6 : hexDecode env.signResp.partSignature with _ | n6 <;>
      simp [arkMempoolHandler, h1, h2, h3, h4, h5, h6] at hstep <;>
      exact hstep.1
  exact ⟨s.preimage, by rw [hpre]; exact hexDecode_hexEncode s.preimage, rfl, rfl⟩

/-- C3 witness: the property evaluated on a concrete session. -/
theorem C3_witness :
    ∃ p : Bytes, hexDecode (hexEncode cxArkSession.preimage) = some p ∧
      p = cxArkSession.preimage ∧
      hexEncode (cxCrypto.sha256 p) =
        (arkCreateRequest cxCrypto cxArkSession.preimage cxArkSession.claimKeys).preimageHash :=
  C3_preimage_hash_roundtrip cxCrypto cxArkSession cxEnv "" (hexEncode cxArkSession.preimage)
    (hexEncode cxCrypto.freshNonce) (cxCrypto.buildClaimTx cxArkSession.preimage
      ⟨p2trScript [], 5000, 0⟩ cxArkSession.claimKeys [] [] []) 0
    (by decide) (by decide)

/-- C4: on the literal event sequence `[swap.created,
transaction.lockupFailed, transaction.server.mempool,
transaction.claim.pending, transaction.claimed]` addressed to the
session's swap, both flows close the socket (the `Claimed` terminal
state), throw nothing, run the quote sub-protocol exactly once (one
fetch, one submission) and compute exactly one partial signature. -/
theorem C4_event_sequence_reaches_claimed (c : Crypto) (sA : ArkSession) (sB : BtcSession)
    (env : NetEnv) (txHex : String) (raw : Bytes) (tx : ParsedTx) (spub : Bytes)
    (out : SwapOut) (n5 n6 skey th spubB cn : Bytes)
    (h1 : hexDecode txHex = some raw)
    (h2 : c.fromRaw raw = some tx)
    (h3 : hexDecode sA.created.claimDetails.serverPublicKey = some spub)
    (h4 : detectSwap c
      (c.tweakMusig (c.musigCreate sA.claimKeys [spub, c.getPublicKey sA.claimKeys])
        (c.deserializeSwapTree sA.created.claimDetails.swapTree)) tx = some out)
    (h5 : hexDecode env.signResp.pubNonce = some n5)
    (h6 : hexDecode env.signResp.partSignature = some n6)
    (h7 : hexDecode env.claimDetails.publicKey = some skey)
    (h8 : hexDecode env.claimDetails.transactionHash = some th)
    (h9 : hexDecode sB.created.lockupDetails.serverPublicKey = some spubB)
    (h10 : hexDecode env.claimDetails.pubNonce = some cn) :
    ((runSession (arkMessageHandler c sA env) (evSeq sA.created.id txHex)).closed = true ∧
     (runSession (arkMessageHandler c sA env) (evSeq sA.created.id txHex)).errs = 0 ∧
     countSteps Step.isFetchQuote
       (runSession (arkMessageHandler c sA env) (evSeq sA.created.id txHex)).steps = 1 ∧
     countSteps Step.isPostQuote
       (runSession (arkMessageHandler c sA env) (evSeq sA.created.id txHex)).steps = 1 ∧
     countSteps Step.isSignPart
       (runSession (arkMessageHandler c sA env) (evSeq sA.created.id txHex)).steps = 1) ∧
    ((runSession (btcMessageHandler c sB env) (evSeq sB.created.id txHex)).closed = true ∧
     (runSession (btcMessageHandler c sB env) (evSeq sB.created.id txHex)).errs = 0 ∧
     countSteps Step.isFetchQuote
       (runSession (btcMessageHandler c sB env) (evSeq sB.created.id txHex)).steps = 1 ∧
     countSteps Step.isPostQuote
       (runSession (btcMessageHandler c sB env) (evSeq sB.created.id txHex)).steps = 1 ∧
     countSteps Step.isSignPart
       (runSession (btcMessageHandler c sB env) (evSeq sB.created.id txHex)).steps = 1) := by
  have hA := arkMempoolHandler_eq c sA env txHex raw tx spub out n5 n6 h1 h2 h3 h4 h5 h6
  have hB := btcClaimPendingHandler_eq c sB env skey th spubB cn h7 h8 h9 h10
  refine ⟨?_, ?_⟩ <;>
    simp [runSession, evSeq, runHandler, arkMessageHandler, btcMessageHandler, hA, hB,
      lockupFailedSteps, hasClose, countSteps, Step.isFetchQuote, Step.isPostQuote,
      Step.isSignPart, Step.isClose]

/-- C4 witness: the sequence evaluated on concrete sessions. -/
theorem C4_witness :
    ((runSession (arkMessageHandler cxCrypto cxArkSession cxEnv)
        (evSeq cxArkSession.created.id "")).closed = true ∧
     (runSession (arkMessageHandler cxCrypto cxArkSession cxEnv)
        (evSeq cxArkSession.created.id "")).errs = 0 ∧
     countSteps Step.isFetchQuote
       (runSession (arkMessageHandler cxCrypto cxArkSession cxEnv)
         (evSeq cxArkSession.created.id "")).steps = 1 ∧
     countSteps Step.isPostQuote
       (runSession (arkMessageHandler cxCrypto cxArkSession cxEnv)
         (evSeq cxArkSession.created.id "")).steps = 1 ∧
     countSteps Step.isSignPart
       (runSession (arkMessageHandler cxCrypto cxArkSession cxEnv)
         (evSeq cxArkSession.created.id "")).steps = 1) ∧
    ((runSession (btcMessageHandler cxCrypto cxBtcSession cxEnv)
        (evSeq cxBtcSession.created.id "")).closed = true ∧
     (runSession (btcMessageHandler cxCrypto cxBtcSession cxEnv)
        (evSeq cxBtcSession.created.id "")).errs = 0 ∧
     countSteps Step.isFetchQuote
       (runSession (btcMessageHandler cxCrypto cxBtcSession cxEnv)
         (evSeq cxBtcSession.created.id "")).steps = 1 ∧
     countSteps Step.isPostQuote
       (runSession (btcMessageHandler cxCrypto cxBtcSession cxEnv)
         (evSeq cxBtcSession.created.id "")).steps = 1 ∧
     countSteps Step.isSignPart
       (runSession (btcMessageHandler cxCrypto cxBtcSession cxEnv)
         (evSeq cxBtcSession.created.id "")).steps = 1) :=
  C4_event_sequence_reaches_claimed cxCrypto cxArkSession cxBtcSession cxEnv ""
    [] ⟨[⟨p2trScript [], 5000⟩], []⟩ [0x03, 0xaa] ⟨p2trScript [], 5000, 0⟩
    [0xaa] [0xbb] [0xdd] [0x00] [0x02, 0xbb] [0xcc]
    (by decide) (by decide) (by decide) (by decide) (by decide)
    (by decide) (by decide) (by decide) (by decide) (by decide)

/-- C5: on a `transaction.lockupFailed` event both scripts perform
exactly one quote fetch followed by one quote submission, and the
submitted amount is exactly the fetched amount — unmodified, and with
no bound check (the equation holds for every `env.quoteAmount`). -/
theorem C5_quote_fetch_then_submit_asis (c : Crypto) (sA : ArkSession) (sB : BtcSession)
    (env : NetEnv) (a : WsArg) (rest : List WsArg)
    (h : a.status = "transaction.lockupFailed") :
    arkMessageHandler c sA env ⟨"update", a :: rest⟩ =
      ([Step.fetchQuote sA.created.id, Step.postQuoteAmount sA.created.id env.quoteAmount],
       none) ∧
    btcMessageHandler c sB env ⟨"update", a :: rest⟩ =
      ([Step.fetchQuote sB.created.id, Step.postQuoteAmount sB.created.id env.quoteAmount],
       none) ∧
    countSteps Step.isFetchQuote (lockupFailedSteps sA.created.id env) = 1 ∧
    countSteps Step.isPostQuote (lockupFailedSteps sA.created.id env) = 1 := by
  refine ⟨?_, ?_, ?_, ?_⟩ <;>
    simp [arkMessageHandler, btcMessageHandler, lockupFailedSteps, h, countSteps,
      Step.isFetchQuote, Step.isPostQuote]

/-- C5 witness: the handler evaluated on a concrete lockup-failed event. -/
theorem C5_witness :
    arkMessageHandler cxCrypto cxArkSession cxEnv
        ⟨"update", [⟨"swapA", "transaction.lockupFailed", ""⟩]⟩ =
      ([Step.fetchQuote cxArkSession.created.id,
        Step.postQuoteAmount cxArkSession.created.id cxEnv.quoteAmount], none) ∧
    btcMessageHandler cxCrypto cxBtcSession cxEnv
        ⟨"update", [⟨"swapA", "transaction.lockupFailed", ""⟩]⟩ =
      ([Step.fetchQuote cxBtcSession.created.id,
        Step.postQuoteAmount cxBtcSession.created.id cxEnv.quoteAmount], none) ∧
    countSteps Step.isFetchQuote (lockupFailedSteps cxArkSession.created.id cxEnv) = 1 ∧
    countSteps Step.isPostQuote (lockupFailedSteps cxArkSession.created.id cxEnv) = 1 :=
  C5_quote_fetch_then_submit_asis cxCrypto cxArkSession cxBtcSession cxEnv
    ⟨"swapA", "transaction.lockupFailed", ""⟩ [] rfl

/-- C6 (counterexample): an update event carrying a different swap
identifier (`"swapOTHER"` vs the session's `"swapA"`) is not ignored:
its status is dispatched normally and the outbound quote fetch is
issued. -/
theorem C6_counterexample :
    ("swapOTHER" : String) ≠ cxArkSession.created.id ∧
    Step.fetchQuote cxArkSession.created.id ∈
      (arkMessageHandler cxCrypto cxArkSession cxEnv
        ⟨"update", [⟨"swapOTHER", "transaction.lockupFailed", ""⟩]⟩).1 ∧
    Step.isNetwork (Step.fetchQuote cxArkSession.created.id) = true := by
  decide

/-- C6 (amended): a message that is not a status-update event produces
no steps, no error and no close in either flow; the swap identifier of
an update, however, is never inspected — both listeners behave
identically whatever identifier the message argument carries, the
per-identifier filtering being delegated to the channel subscription. -/
theorem C6_amended_non_update_dropped_id_ignored (c : Crypto) (sA : ArkSession)
    (sB : BtcSession) (env : NetEnv) (msg : WsMsg) (ev i1 i2 st txh : String)
    (rest : List WsArg) (hne : msg.event ≠ "update") :
    arkMessageHandler c sA env msg = ([], none) ∧
    btcMessageHandler c sB env msg = ([], none) ∧
    arkMessageHandler c sA env ⟨ev, ⟨i1, st, txh⟩ :: rest⟩ =
      arkMessageHandler c sA env ⟨ev, ⟨i2, st, txh⟩ :: rest⟩ ∧
    btcMessageHandler c sB env ⟨ev, ⟨i1, st, txh⟩ :: rest⟩ =
      btcMessageHandler c sB env ⟨ev, ⟨i2, st, txh⟩ :: rest⟩ := by
  refine ⟨?_, ?_, rfl, rfl⟩ <;> simp [arkMessageHandler, btcMessageHandler, hne]

/-- C6 witness: a non-update message on concrete sessions, and identifier
invariance at two concrete identifiers. -/
theorem C6_witness :
    arkMessageHandler cxCrypto cxArkSession cxEnv ⟨"ping", []⟩ = ([], none) ∧
    btcMessageHandler cxCrypto cxBtcSession cxEnv ⟨"ping", []⟩ = ([], none) ∧
    arkMessageHandler cxCrypto cxArkSession cxEnv
        ⟨"update", ⟨"idX", "swap.created", ""⟩ :: []⟩ =
      arkMessageHandler cxCrypto cxArkSession cxEnv
        ⟨"update", ⟨"idY", "swap.created", ""⟩ :: []⟩ ∧
    btcMessageHandler cxCrypto cxBtcSession cxEnv
        ⟨"update", ⟨"idX", "swap.created", ""⟩ :: []⟩ =
      btcMessageHandler cxCrypto cxBtcSession cxEnv
        ⟨"update", ⟨"idY", "swap.created", ""⟩ :: []⟩ :=
  C6_amended_non_update_dropped_id_ignored cxCrypto cxArkSession cxBtcSession cxEnv
    ⟨"ping", []⟩ "update" "idX" "idY" "swap.created" "" [] (by decide)

/-- C7 (counterexample): the `transactionHash` field `"00"` decodes to a
single byte — not 32 — yet the BTC→ARK claim-pending handler neither
fails nor rejects it: it completes without error and binds the 1-byte
value as the message to sign. -/
theorem C7_counterexample :
    hexDecode cxEnv.claimDetails.transactionHash = some [0] ∧
    ([0] : Bytes).length ≠ 32 ∧
    (btcClaimPendingHandler cxCrypto cxBtcSession cxEnv).2 = none ∧
    Step.musigMessage [0] ∈ (btcClaimPendingHandler cxCrypto cxBtcSession cxEnv).1 := by
  decide

/-- C7 (amended): hex fields from the service are decoded with
`hex.decode`, which succeeds exactly when the string has even length
and only hex digits (of either case, per its case-insensitive
character lookup); no expected-byte-length validation is performed,
and a decoded value of any length is used as-is — in particular the
claim-pending handler binds and signs a decoded `transactionHash` of
any length. -/
theorem C7_amended_hex_wellformedness_only :
    (∀ s : String,
      (hexDecode s).isSome = ((s.data.length % 2 == 0) && s.data.all isHexDigit)) ∧
    (∀ (c : Crypto) (sB : BtcSession) (env : NetEnv) (skey th spub cn : Bytes),
      hexDecode env.claimDetails.publicKey = some skey →
      hexDecode env.claimDetails.transactionHash = some th →
      hexDecode sB.created.lockupDetails.serverPublicKey = some spub →
      hexDecode env.claimDetails.pubNonce = some cn →
      Step.musigMessage th ∈ (btcClaimPendingHandler c sB env).1) := by
  constructor
  · intro s
    rw [hexDecode, hexDecodeL_isSome, validHexL_eq]
  · intro c sB env skey th spub cn h1 h2 h3 h4
    rw [btcClaimPendingHandler_eq c sB env skey th spub cn h1 h2 h3 h4]
    simp

/-- C7 witness: the wrong-length hash is nevertheless bound as the
message on concrete inputs. -/
theorem C7_witness :
    Step.musigMessage [0] ∈ (btcClaimPendingHandler cxCrypto cxBtcSession cxEnv).1 :=
  C7_amended_hex_wellformedness_only.2 cxCrypto cxBtcSession cxEnv [0xdd] [0]
    [0x02, 0xbb] [0xcc] (by decide) (by decide) (by decide) (by decide)

/-- C8: for a fixed input amount and target rate R, the fee chosen by
fee targeting equals weight × R exactly — so the fee-to-weight ratio is
R, within one unit — and rebuilding the transaction from its own
weight's implied fee reproduces it (the iteration is at a fixed
point). -/
theorem C8_fee_targeting_fixed_point (rate : Nat) (obs : LockupObs) (script : Bytes)
    (h : draftWeight (constructClaimDraft obs script 0) * rate ≤ obs.amount) :
    obs.amount - (targetFee rate obs script).outputValue =
      draftWeight (targetFee rate obs script) * rate ∧
    (obs.amount - (targetFee rate obs script).outputValue) /
      draftWeight (targetFee rate obs script) = rate ∧
    constructClaimDraft obs script (draftWeight (targetFee rate obs script) * rate) =
      targetFee rate obs script := by
  have hpos : 0 < draftWeight (constructClaimDraft obs script 0) := by
    simp [draftWeight, serializeDraft, leBytes_length, constructClaimDraft]
  have hfee : targetFee rate obs script =
      constructClaimDraft obs script (draftWeight (constructClaimDraft obs script 0) * rate) := by
    rw [targetFee, feeLoop_eval]
  have hout : ∀ fee, (constructClaimDraft obs script fee).outputValue = obs.amount - fee :=
    fun _ => rfl
  rw [hfee]
  simp only [draftWeight_const, hout]
  refine ⟨?_, ?_, trivial⟩
  · omega
  · rw [Nat.sub_sub_self h]
    exact Nat.mul_div_cancel_left rate hpos

/-- C8 witness: fee targeting evaluated at rate 1 on a concrete lockup
observation. -/
theorem C8_witness :
    (LockupObs.mk [] 0 100000).amount - (targetFee 1 ⟨[], 0, 100000⟩ []).outputValue =
      draftWeight (targetFee 1 ⟨[], 0, 100000⟩ []) * 1 ∧
    ((LockupObs.mk [] 0 100000).amount - (targetFee 1 ⟨[], 0, 100000⟩ []).outputValue) /
      draftWeight (targetFee 1 ⟨[], 0, 100000⟩ []) = 1 ∧
    constructClaimDraft ⟨[], 0, 100000⟩ [] (draftWeight (targetFee 1 ⟨[], 0, 100000⟩ []) * 1) =
      targetFee 1 ⟨[], 0, 100000⟩ [] :=
  C8_fee_targeting_fixed_point 1 ⟨[], 0, 100000⟩ [] (by decide)

/-- C9: when the lockup transaction delivered with
`transaction.server.mempool` contains no output paying the tweaked
aggregate key — i.e. no output matching any of `detectSwap`'s four
candidate scripts derived from that key — the ARK→BTC handler throws
on the missing swap output having performed no step at all: in
particular no claim POST, no signing and no broadcast. -/
theorem C9_missing_swap_output_aborts (c : Crypto) (s : ArkSession) (env : NetEnv)
    (txHex : String) (raw : Bytes) (tx : ParsedTx) (spub : Bytes)
    (h1 : hexDecode txHex = some raw)
    (h2 : c.fromRaw raw = some tx)
    (h3 : hexDecode s.created.claimDetails.serverPublicKey = some spub)
    (h4 : ∀ o ∈ tx.outputs, o.script ∉ swapScripts c
      (c.tweakMusig (c.musigCreate s.claimKeys [spub, c.getPublicKey s.claimKeys])
        (c.deserializeSwapTree s.created.claimDetails.swapTree))) :
    arkMempoolHandler c s env txHex = ([], some Err.undefinedAccess) ∧
    countSteps Step.isNetwork (arkMempoolHandler c s env txHex).1 = 0 := by
  have hds : detectSwap c
      (c.tweakMusig (c.musigCreate s.claimKeys [spub, c.getPublicKey s.claimKeys])
        (c.deserializeSwapTree s.created.claimDetails.swapTree)) tx = none :=
    detectSwapAux_none _ _ h4 0 none
  have heq : arkMempoolHandler c s env txHex = ([], some Err.undefinedAccess) := by
    simp [arkMempoolHandler, h1, h2, h3, hds]
  exact ⟨heq, by rw [heq]; rfl⟩

/-- C9 witness: evaluated with a parsed lockup transaction whose only
output pays a different script. -/
theorem C9_witness :
    arkMempoolHandler cxCryptoNoOut cxArkSession cxEnv "" =
      ([], some Err.undefinedAccess) ∧
    countSteps Step.isNetwork (arkMempoolHandler cxCryptoNoOut cxArkSession cxEnv "").1 = 0 :=
  C9_missing_swap_output_aborts cxCryptoNoOut cxArkSession cxEnv "" []
    ⟨[⟨[0], 5⟩], []⟩ [0x03, 0xaa] (by decide) (by decide) (by decide) (by decide)

/-- C10: on `transaction.claim.pending` the BTC→ARK script binds as the
MuSig message exactly the `transactionHash` bytes returned by the
claim-details fetch — whatever value they are, with no check relating
them to any transaction or expected spend — computes the partial
signature over them and submits it. -/
theorem C10_signs_service_hash_unchecked (c : Crypto) (s : BtcSession) (env : NetEnv)
    (skey th spub cn : Bytes)
    (h1 : hexDecode env.claimDetails.publicKey = some skey)
    (h2 : hexDecode env.claimDetails.transactionHash = some th)
    (h3 : hexDecode s.created.lockupDetails.serverPublicKey = some spub)
    (h4 : hexDecode env.claimDetails.pubNonce = some cn) :
    btcClaimPendingHandler c s env =
      ([Step.fetchClaimDetails s.created.id, Step.musigMessage th,
        Step.generateNonce c.freshNonce, Step.aggregateNonces [(spub, cn)],
        Step.initSession, Step.signPart,
        Step.postPartSig s.created.id (hexEncode (c.signPartFn th))
          (hexEncode c.freshNonce)],
       none) :=
  btcClaimPendingHandler_eq c s env skey th spub cn h1 h2 h3 h4

/-- C10 witness: the handler evaluated on concrete claim details. -/
theorem C10_witness :
    btcClaimPendingHandler cxCrypto cxBtcSession cxEnv =
      ([Step.fetchClaimDetails cxBtcSession.created.id, Step.musigMessage [0],
        Step.generateNonce cxCrypto.freshNonce,
        Step.aggregateNonces [([0x02, 0xbb], [0xcc])],
        Step.initSession, Step.signPart,
        Step.postPartSig cxBtcSession.created.id (hexEncode (cxCrypto.signPartFn [0]))
          (hexEncode cxCrypto.freshNonce)],
       none) :=
  C10_signs_service_hash_unchecked cxCrypto cxBtcSession cxEnv [0xdd] [0]
    [0x02, 0xbb] [0xcc] (by decide) (by decide) (by decide) (by decide)
